import Mathlib

/-!
Verification of the notification core of the Telegram exchange-rate bot
(`src/main.py`): the subscription store backed by the `subs` table
(`add_sub`, `remove_all_subs`, `list_subs`), the due-subscription
resolution and delivery performed by `notifier_loop`, and the
`/subscribe_daily` argument parsing in `cmd_subscribe_daily`.

The SQLite table `subs(id, user_id, chat_id, kind, daily_time, created_at)`
is modelled as a list of rows in insertion order together with the
autoincrement counter.  Python exceptions are modelled with `Except`.
Digit tests (`str.isdigit`) are modelled over ASCII digits.
-/

/-- The `kind` column: `'hourly'` or `'daily'`. -/
inductive Kind where
  | hourly
  | daily
deriving DecidableEq, Repr

/-- The TEXT value stored in the `kind` column, used by `ORDER BY kind`. -/
def Kind.columnText : Kind → String
  | .hourly => "hourly"
  | .daily => "daily"

/-- One row of the `subs` table. -/
structure Row where
  id : Nat
  user_id : Int
  chat_id : Int
  kind : Kind
  daily_time : Option String
  created_at : Nat
deriving DecidableEq, Repr

/-- The `subs` table: rows in insertion order plus the autoincrement state. -/
structure Store where
  nextId : Nat
  rows : List Row
deriving DecidableEq, Repr

/-- The freshly created table (`init_db`). -/
def Store.empty : Store := { nextId := 0, rows := [] }

/-- Python truthiness of `not daily_time`: `None` and the empty string are
falsy. -/
def pyFalsy : Option String → Bool
  | Option.none => true
  | Option.some s => s.isEmpty

/-- `add_sub(user_id, chat_id, kind, daily_time)`: raises `ValueError` when
`kind == 'daily' and not daily_time`; otherwise deletes every row of the
same user and kind, then inserts the new row. -/
def addSub (s : Store) (user chat : Int) (kind : Kind) (dt : Option String)
    (now : Nat) : Except String Store :=
  if kind == Kind.daily && pyFalsy dt then
    Except.error "daily_time is required for daily"
  else
    Except.ok
      { nextId := s.nextId + 1
        rows := s.rows.filter (fun r => !(r.user_id == user && r.kind == kind)) ++
          [{ id := s.nextId, user_id := user, chat_id := chat, kind := kind,
             daily_time := dt, created_at := now }] }

/-- `remove_all_subs(user_id)`: `DELETE FROM subs WHERE user_id=?`, returning
the cursor `rowcount`, i.e. how many rows the `DELETE` removed. -/
def removeAllSubs (s : Store) (user : Int) : Store × Nat :=
  let kept := s.rows.filter (fun r => !(r.user_id == user))
  ({ s with rows := kept }, s.rows.length - kept.length)

/-- `list_subs(user_id)`: `SELECT kind, daily_time FROM subs WHERE user_id=?
ORDER BY kind`.  The TEXT values compare `'daily' < 'hourly'`, so the stable
sort by `kind` lists the daily rows (in table order) before the hourly rows. -/
def listSubs (s : Store) (user : Int) : List (Kind × Option String) :=
  ((s.rows.filter (fun r => r.user_id == user)).filter
        (fun r => r.kind == Kind.daily) ++
      (s.rows.filter (fun r => r.user_id == user)).filter
        (fun r => r.kind == Kind.hourly)).map
    (fun r => (r.kind, r.daily_time))

/-- `SELECT DISTINCT` over the chat ids of a query result, keeping the first
occurrence of each chat id: the worker carries the ids already emitted. -/
def distinctChatsAux (seen : List Int) : List Int → List Int
  | [] => []
  | c :: cs =>
      if seen.contains c then distinctChatsAux seen cs
      else c :: distinctChatsAux (c :: seen) cs

/-- `SELECT DISTINCT` over the chat ids of a query result. -/
def distinctChats (l : List Int) : List Int := distinctChatsAux [] l

/-- `SELECT DISTINCT chat_id FROM subs WHERE kind='hourly'`. -/
def distinctHourlyChats (s : Store) : List Int :=
  distinctChats ((s.rows.filter (fun r => r.kind == Kind.hourly)).map
    (fun r => r.chat_id))

/-- `SELECT DISTINCT chat_id FROM subs WHERE kind='daily' AND daily_time=?`. -/
def distinctDailyChats (s : Store) (hhmm : String) : List Int :=
  distinctChats ((s.rows.filter
      (fun r => r.kind == Kind.daily && r.daily_time == Option.some hhmm)).map
    (fun r => r.chat_id))

/-- The hourly branch of `notifier_loop`: the hourly query runs only when
`now_utc.minute == 0`. -/
def dueHourlyChats (s : Store) (minute : Nat) : List Int :=
  if minute = 0 then distinctHourlyChats s else []

/-- Zero-padded rendering of a two-digit field, as Python `f"{n:02d}"`. -/
def fmt2 (n : Nat) : String :=
  if n < 10 then "0" ++ toString n else toString n

/-- `now_utc.strftime("%H:%M")` for a wall-clock hour and minute. -/
def strftimeHM (hour minute : Nat) : String :=
  fmt2 hour ++ ":" ++ fmt2 minute

/-- The rate snapshot built by `get_rates`. -/
structure Rates where
  ton_usd : Int
  usd_rub : Int
  ton_rub : Int
deriving DecidableEq, Repr

/-- The dispatch loops of `notifier_loop`: `bot.send_message` is called for
each due chat in order; the first send that raises aborts the remaining
sends of the tick (the exception escapes both `for` loops to the tick-level
`except`).  Returns the chats for which a send was attempted. -/
def deliverAttempts (sendOk : Int → Bool) : List Int → List Int
  | [] => []
  | c :: cs => if sendOk c then c :: deliverAttempts sendOk cs else [c]

/-- One tick of `notifier_loop`, after `now_utc` was read: `get_rates` runs
first; if it raises, the tick ends before any query or send.  Otherwise the
hourly chats (only at `minute == 0`) and then the matching daily chats are
sent to, aborting at the first failed send.  The tick never writes to the
store.  Returns the attempted chats and the store after the tick. -/
def runTick (fetch : Except Unit Rates) (sendOk : Int → Bool) (s : Store)
    (hour minute : Nat) : List Int × Store :=
  match fetch with
  | Except.error _ => ([], s)
  | Except.ok _ =>
      (deliverAttempts sendOk
        (dueHourlyChats s minute ++ distinctDailyChats s (strftimeHM hour minute)),
        s)

/-- Start time (seconds) of the n-th tick of `notifier_loop`: the loop body
takes `d n` seconds and the `finally` then sleeps 60 seconds, so each tick
starts `d n + 60` seconds after the previous one. -/
def tickStart (t0 : Nat) (d : Nat → Nat) : Nat → Nat
  | 0 => t0
  | n + 1 => tickStart t0 d n + d n + 60

/-- The wall-clock minute bucket of a time in seconds. -/
def minuteIndex (t : Nat) : Nat := t / 60

/-- The error taxonomy of a tick: fetch failure, store I/O failure, or a
delivery failure, all of which are Python `Exception`s. -/
inductive TickError where
  | fetchErr
  | persistenceErr
  | deliveryErr
deriving DecidableEq, Repr

/-- The `try/except/finally` skeleton of one `notifier_loop` iteration:
whatever the tick body produced, the `except Exception` clause logs any
error and the loop always proceeds to the next iteration. -/
def loopStep (body : Except TickError (List Int)) : Option TickError × Bool :=
  match body with
  | Except.ok _ => (Option.none, true)
  | Except.error e => (Option.some e, true)

/-- Whether the loop is still running when tick `n` starts, given the
outcome of every tick body. -/
def loopAlive (outcomes : Nat → Except TickError (List Int)) : Nat → Bool
  | 0 => true
  | n + 1 => loopAlive outcomes n && (loopStep (outcomes n)).2

/-- A store operation issued through the command interface. -/
inductive Op where
  | upsert (user chat : Int) (kind : Kind) (dt : Option String) (now : Nat)
  | removeAll (user : Int)
deriving DecidableEq, Repr

/-- Apply one operation to the store; a raised `ValueError` in `add_sub`
leaves the store unchanged (the exception fires before any write). -/
def applyOp (s : Store) : Op → Store
  | Op.upsert user chat kind dt now =>
      match addSub s user chat kind dt now with
      | Except.ok t => t
      | Except.error _ => s
  | Op.removeAll user => (removeAllSubs s user).1

/-- The store invariant: at most one hourly and at most one daily row per
user. -/
def storeOk (s : Store) : Prop :=
  ∀ u : Int, ∀ k : Kind,
    (s.rows.countP (fun r => r.user_id == u && r.kind == k)) ≤ 1

/-- Python `str.isdigit` restricted to ASCII: nonempty and every character
a decimal digit. -/
def pyIsdigit (s : String) : Bool :=
  !s.data.isEmpty && s.data.all Char.isDigit

/-- Number of `':'` characters, Python `time_str.count(":")`. -/
def colonCount (s : String) : Nat :=
  s.data.countP (fun c => c == ':')

/-- The part of the argument before the first `':'` (Python
`time_str.split(":")[0]` when the string has exactly one colon). -/
def hourPart (s : String) : String :=
  String.mk (s.data.takeWhile (fun c => !(c == ':')))

/-- The part of the argument after the first `':'` (Python
`time_str.split(":")[1]` when the string has exactly one colon). -/
def minutePart (s : String) : String :=
  String.mk ((s.data.dropWhile (fun c => !(c == ':'))).drop 1)

/-- Python `int` on a nonempty string of ASCII digits. -/
def digitsToNat (s : String) : Nat :=
  s.data.foldl (fun a c => 10 * a + (c.toNat - 48)) 0

/-- The validation and normalization done by `cmd_subscribe_daily` on its
argument: requires exactly one colon, both parts all digits, hour `0..23`
and minute `0..59`; on success returns the stored `daily_time`, the
zero-padded `f"{hh:02d}:{mm:02d}"`. -/
def parseDailyArg (timeStr : String) : Option String :=
  if colonCount timeStr ≠ 1 then Option.none
  else if ¬(pyIsdigit (hourPart timeStr) ∧ pyIsdigit (minutePart timeStr)) then
    Option.none
  else
    let hh := digitsToNat (hourPart timeStr)
    let mm := digitsToNat (minutePart timeStr)
    if hh ≤ 23 ∧ mm ≤ 59 then Option.some (fmt2 hh ++ ":" ++ fmt2 mm)
    else Option.none

/-! ## Helper lemmas -/

theorem mem_distinctChatsAux :
    ∀ (l seen : List Int) (x : Int),
      x ∈ distinctChatsAux seen l ↔ x ∈ l ∧ x ∉ seen := by
  intro l
  induction l with
  | nil => intro seen x; simp [distinctChatsAux]
  | cons c cs ih =>
    intro seen x
    rw [distinctChatsAux]
    by_cases hc : seen.contains c = true
    · rw [if_pos hc, ih]
      have hcseen : c ∈ seen := by
        simpa [List.elem_iff] using hc
      simp only [List.mem_cons]
      constructor
      · rintro ⟨h1, h2⟩
        exact ⟨Or.inr h1, h2⟩
      · rintro ⟨h1 | h1, h2⟩
        · exact absurd (h1 ▸ hcseen) h2
        · exact ⟨h1, h2⟩
    · rw [if_neg hc]
      have hcseen : c ∉ seen := by
        simpa [List.elem_iff] using hc
      simp only [List.mem_cons, ih, List.mem_cons, not_or]
      constructor
      · rintro (rfl | ⟨h1, _, h3⟩)
        · exact ⟨Or.inl rfl, hcseen⟩
        · exact ⟨Or.inr h1, h3⟩
      · rintro ⟨h1 | h1, h2⟩
        · exact Or.inl h1
        · by_cases hx : x = c
          · exact Or.inl hx
          · exact Or.inr ⟨h1, hx, h2⟩

theorem mem_distinctChats (l : List Int) (x : Int) :
    x ∈ distinctChats l ↔ x ∈ l := by
  rw [distinctChats, mem_distinctChatsAux]
  simp

theorem nodup_distinctChatsAux :
    ∀ (l seen : List Int), (distinctChatsAux seen l).Nodup := by
  intro l
  induction l with
  | nil => intro seen; simp [distinctChatsAux]
  | cons c cs ih =>
    intro seen
    rw [distinctChatsAux]
    by_cases hc : seen.contains c = true
    · rw [if_pos hc]
      exact ih seen
    · rw [if_neg hc]
      refine List.nodup_cons.mpr ⟨?_, ih (c :: seen)⟩
      intro hmem
      rw [mem_distinctChatsAux] at hmem
      exact hmem.2 (List.mem_cons_self c seen)

theorem nodup_distinctChats (l : List Int) : (distinctChats l).Nodup :=
  nodup_distinctChatsAux l []

theorem mem_distinctHourlyChats (s : Store) (c : Int) :
    c ∈ distinctHourlyChats s ↔ ∃ r ∈ s.rows, r.kind = Kind.hourly ∧ r.chat_id = c := by
  unfold distinctHourlyChats
  rw [mem_distinctChats]
  simp [List.mem_map, List.mem_filter, and_assoc]

theorem mem_distinctDailyChats (s : Store) (hhmm : String) (c : Int) :
    c ∈ distinctDailyChats s hhmm ↔
      ∃ r ∈ s.rows, r.kind = Kind.daily ∧ r.daily_time = Option.some hhmm ∧
        r.chat_id = c := by
  unfold distinctDailyChats
  rw [mem_distinctChats]
  simp [List.mem_map, List.mem_filter, and_assoc]

/-! ## C5: due-subscription resolution -/

/-- C5: the resolver marks hourly subscriptions as due exactly when the
current minute is 0, marks a daily subscription as due exactly when the
current `HH:MM` string equals its stored `daily_time`, and `SELECT DISTINCT`
collapses duplicate chat ids, so each due chat appears at most once per
cadence per tick. -/
theorem resolver_due_correct (s : Store) (minute : Nat) (hhmm : String) :
    (∀ c : Int, c ∈ dueHourlyChats s minute ↔
      (minute = 0 ∧ ∃ r ∈ s.rows, r.kind = Kind.hourly ∧ r.chat_id = c)) ∧
    (∀ c : Int, c ∈ distinctDailyChats s hhmm ↔
      ∃ r ∈ s.rows, r.kind = Kind.daily ∧ r.daily_time = Option.some hhmm ∧
        r.chat_id = c) ∧
    (dueHourlyChats s minute).Nodup ∧ (distinctDailyChats s hhmm).Nodup := by
  refine ⟨?_, fun c => mem_distinctDailyChats s hhmm c, ?_, nodup_distinctChats _⟩
  · intro c
    unfold dueHourlyChats
    by_cases hm : minute = 0
    · simp [hm, mem_distinctHourlyChats]
    · simp [hm]
  · unfold dueHourlyChats
    by_cases hm : minute = 0
    · simp only [hm, if_pos rfl]
      exact nodup_distinctChats _
    · simp [hm]

/-- Two daily subscriptions of different users sharing chat 100 and time
09:00: the resolver lists chat 100 exactly once. -/
def c5Store : Store :=
  { nextId := 2
    rows := [{ id := 0, user_id := 1, chat_id := 100, kind := Kind.daily,
               daily_time := Option.some "09:00", created_at := 0 },
             { id := 1, user_id := 2, chat_id := 100, kind := Kind.daily,
               daily_time := Option.some "09:00", created_at := 1 }] }

/-- Witness for C5 at a concrete store: the shared chat 100 is due at 09:00,
the due list has no duplicates, and no chat is hourly-due (the store has no
hourly rows). -/
theorem resolver_due_correct_witness :
    (100 : Int) ∈ distinctDailyChats c5Store "09:00" ∧
    (distinctDailyChats c5Store "09:00").Nodup ∧
    ¬ ((5 : Int) ∈ dueHourlyChats c5Store 0) := by
  have h := resolver_due_correct c5Store 0 "09:00"
  refine ⟨?_, h.2.2.2, ?_⟩
  · refine (h.2.1 100).mpr
      ⟨{ id := 0, user_id := 1, chat_id := 100, kind := Kind.daily,
         daily_time := Option.some "09:00", created_at := 0 }, ?_, rfl, rfl, rfl⟩
    simp [c5Store]
  · intro h5
    have h5r := (h.1 5).mp h5
    simp [c5Store] at h5r

/-! ## C6: fetch failure aborts the tick -/

/-- C6: when `get_rates` raises, the tick makes no delivery attempt (the
fetch happens before any query or send), leaves the store unchanged, and
the following tick behaves on that store exactly as on the original one. -/
theorem fetch_failure_aborts_tick (s : Store) (sendOk : Int → Bool)
    (hour minute : Nat) (f2 : Except Unit Rates) (sendOk2 : Int → Bool)
    (hour2 minute2 : Nat) :
    (runTick (Except.error ()) sendOk s hour minute).1 = [] ∧
    (runTick (Except.error ()) sendOk s hour minute).2 = s ∧
    runTick f2 sendOk2 (runTick (Except.error ()) sendOk s hour minute).2
        hour2 minute2 =
      runTick f2 sendOk2 s hour2 minute2 :=
  ⟨rfl, rfl, rfl⟩

/-! ## C7: tick errors never terminate the loop -/

/-- C7: any error surfaced by a tick body is caught by the `except` clause
at the tick boundary and logged, and the loop reaches every subsequent tick
regardless of how each tick body ended. -/
theorem tick_errors_never_fatal (outcomes : Nat → Except TickError (List Int))
    (n : Nat) :
    loopAlive outcomes n = true ∧
    (∀ e : TickError, loopStep (Except.error e) = (Option.some e, true)) := by
  constructor
  · induction n with
    | zero => rfl
    | succ k ih =>
      rw [loopAlive, ih, Bool.true_and]
      cases outcomes k <;> rfl
  · intro e
    rfl

/-! ## C1: a failed send aborts the rest of the tick -/

/-- Three hourly subscriptions with chats 1, 2, 3. -/
def c1Store : Store :=
  { nextId := 3
    rows := [{ id := 0, user_id := 1, chat_id := 1, kind := Kind.hourly,
               daily_time := Option.none, created_at := 0 },
             { id := 1, user_id := 2, chat_id := 2, kind := Kind.hourly,
               daily_time := Option.none, created_at := 1 },
             { id := 2, user_id := 3, chat_id := 3, kind := Kind.hourly,
               daily_time := Option.none, created_at := 2 }] }

/-- Sending to chat 2 fails, every other send succeeds. -/
def c1Send : Int → Bool := fun c => !(c == 2)

/-- C1 counterexample: at a tick with due chats 1, 2, 3 where the send to
chat 2 fails, the dispatcher does not attempt all three chats — chat 3 is
never attempted, because the exception escapes the send loop to the
tick-level handler. -/
theorem delivery_failure_not_isolated_cex :
    (runTick (Except.ok ⟨5, 90, 450⟩) c1Send c1Store 10 0).1 ≠ [1, 2, 3] ∧
    (runTick (Except.ok ⟨5, 90, 450⟩) c1Send c1Store 10 0).1 = [1, 2] := by
  constructor
  · decide
  · decide

/-- C1 amended: a failed send ends the tick's dispatching: the chats before
the first failing chat are attempted, the failing chat itself is attempted,
and no chat after it is attempted in that tick; the raised delivery error is
then caught at the tick boundary and the loop proceeds to the next tick. -/
theorem delivery_aborts_at_first_failure (sendOk : Int → Bool)
    (pre : List Int) (c : Int) (post : List Int)
    (hpre : ∀ x ∈ pre, sendOk x = true) (hc : sendOk c = false) :
    deliverAttempts sendOk (pre ++ c :: post) = pre ++ [c] ∧
    (loopStep (Except.error TickError.deliveryErr)).2 = true := by
  refine ⟨?_, rfl⟩
  induction pre with
  | nil => simp [deliverAttempts, hc]
  | cons a as ih =>
    have ha : sendOk a = true := hpre a (List.mem_cons_self a as)
    have has : ∀ x ∈ as, sendOk x = true := fun x hx => hpre x (List.mem_cons_of_mem a hx)
    simp only [List.cons_append, deliverAttempts, ha, if_true, List.append_eq]
    rw [ih has]

/-- Witness for C1 amended at chats `[1] ++ 2 :: [3]` with the send to
chat 2 failing: only chats 1 and 2 are attempted. -/
theorem delivery_aborts_at_first_failure_witness :
    deliverAttempts c1Send ([1] ++ 2 :: [3]) = [1] ++ [2] ∧
    (loopStep (Except.error TickError.deliveryErr)).2 = true :=
  delivery_aborts_at_first_failure c1Send [1] 2 [3] (by decide) (by decide)

/-! ## C3: tick period and minute granularity -/

theorem minuteIndex_tickStart_strictMono (t0 : Nat) (d : Nat → Nat) :
    StrictMono (fun n => minuteIndex (tickStart t0 d n)) := by
  apply strictMono_nat_of_lt_succ
  intro n
  show tickStart t0 d n / 60 < tickStart t0 d (n + 1) / 60
  have hle : tickStart t0 d n + 60 ≤ tickStart t0 d (n + 1) := by
    rw [tickStart]
    omega
  have h2 : (tickStart t0 d n + 60) / 60 = tickStart t0 d n / 60 + 1 :=
    Nat.add_div_right _ (by norm_num)
  have h3 : (tickStart t0 d n + 60) / 60 ≤ tickStart t0 d (n + 1) / 60 :=
    Nat.div_le_div_right hle
  omega

/-- C3 counterexample: when the tick body takes 30 seconds the next tick
starts 90 seconds (not 60) after the previous one, and when every tick body
takes 60 seconds the second tick already lies in minute 2 — minute 1 is
skipped. -/
theorem fixed_period_cex :
    tickStart 0 (fun _ => 30) 1 ≠ tickStart 0 (fun _ => 30) 0 + 60 ∧
    minuteIndex (tickStart 0 (fun _ => 60) 0) = 0 ∧
    minuteIndex (tickStart 0 (fun _ => 60) 1) = 2 := by
  refine ⟨by decide, rfl, rfl⟩

/-- C3 amended: the loop sleeps 60 seconds after the tick body finishes, so
tick `m+1` starts `d m + 60` seconds after tick `m` — the period is 60
seconds plus the previous tick's duration, not a fixed 60 seconds.  Distinct
ticks therefore always fall in strictly increasing wall-clock minutes, so the
resolver never fires a subscription twice for the same minute, but minutes
can be skipped when a tick body takes nonzero time. -/
theorem tick_period_depends_on_duration (t0 : Nat) (d : Nat → Nat)
    (m n : Nat) (h : m < n) :
    tickStart t0 d (m + 1) = tickStart t0 d m + d m + 60 ∧
    minuteIndex (tickStart t0 d m) < minuteIndex (tickStart t0 d n) :=
  ⟨rfl, minuteIndex_tickStart_strictMono t0 d h⟩

/-- Witness for C3 amended: ticks 0 and 1 with a 7-second tick body. -/
theorem tick_period_depends_on_duration_witness :
    tickStart 0 (fun _ => 7) 1 = tickStart 0 (fun _ => 7) 0 + 7 + 60 ∧
    minuteIndex (tickStart 0 (fun _ => 7) 0) < minuteIndex (tickStart 0 (fun _ => 7) 1) :=
  tick_period_depends_on_duration 0 (fun _ => 7) 0 1 (by decide)

/-! ## C2: listing order -/

/-- One hourly and one daily subscription of user 1, hourly row first. -/
def c2Store : Store :=
  { nextId := 2
    rows := [{ id := 0, user_id := 1, chat_id := 100, kind := Kind.hourly,
               daily_time := Option.none, created_at := 0 },
             { id := 1, user_id := 1, chat_id := 100, kind := Kind.daily,
               daily_time := Option.some "09:00", created_at := 1 }] }

/-- C2 counterexample: `ORDER BY kind` sorts the TEXT values, and
`'daily' < 'hourly'`, so for a user with both cadences `list_subs` returns
the daily subscription first — not the hourly one as claimed. -/
theorem list_subs_hourly_first_cex :
    listSubs c2Store 1 ≠
      [(Kind.hourly, Option.none), (Kind.daily, Option.some "09:00")] ∧
    listSubs c2Store 1 =
      [(Kind.daily, Option.some "09:00"), (Kind.hourly, Option.none)] := by
  refine ⟨by decide, by decide⟩

/-- C2 amended: `list_subs(user_id)` returns all of the user's
subscriptions (a permutation of the user's rows, projected to kind and
daily time), ordered with every Daily subscription before every Hourly one
(`ORDER BY kind` on the TEXT values, where `'daily' < 'hourly'`); the order
is stable between calls since the result is a function of the store alone. -/
theorem list_subs_returns_all_daily_before_hourly (s : Store) (u : Int) :
    (listSubs s u).Perm
      ((s.rows.filter (fun r => r.user_id == u)).map
        (fun r => (r.kind, r.daily_time))) ∧
    ∃ ds hs, listSubs s u = ds ++ hs ∧
      (∀ x ∈ ds, x.1 = Kind.daily) ∧ (∀ x ∈ hs, x.1 = Kind.hourly) := by
  constructor
  · unfold listSubs
    apply List.Perm.map
    have hcongr :
        (s.rows.filter (fun r => r.user_id == u)).filter
            (fun r => r.kind == Kind.hourly) =
          (s.rows.filter (fun r => r.user_id == u)).filter
            (fun x => !(x.kind == Kind.daily)) := by
      apply List.filter_congr
      intro r _
      cases r.kind <;> rfl
    rw [hcongr]
    exact List.filter_append_perm (fun (r : Row) => r.kind == Kind.daily) _
  · refine ⟨((s.rows.filter (fun r => r.user_id == u)).filter
        (fun r => r.kind == Kind.daily)).map (fun r => (r.kind, r.daily_time)),
      ((s.rows.filter (fun r => r.user_id == u)).filter
        (fun r => r.kind == Kind.hourly)).map (fun r => (r.kind, r.daily_time)),
      ?_, ?_, ?_⟩
    · unfold listSubs
      exact List.map_append _ _ _
    · intro x hx
      obtain ⟨r, hr, rfl⟩ := List.mem_map.mp hx
      simpa using (List.mem_filter.mp hr).2
    · intro x hx
      obtain ⟨r, hr, rfl⟩ := List.mem_map.mp hx
      simpa using (List.mem_filter.mp hr).2

/-- Witness for C2 amended at the concrete two-row store. -/
theorem list_subs_returns_all_daily_before_hourly_witness :
    (listSubs c2Store 1).Perm
      ((c2Store.rows.filter (fun r => r.user_id == (1 : Int))).map
        (fun r => (r.kind, r.daily_time))) ∧
    ∃ ds hs, listSubs c2Store 1 = ds ++ hs ∧
      (∀ x ∈ ds, x.1 = Kind.daily) ∧ (∀ x ∈ hs, x.1 = Kind.hourly) :=
  list_subs_returns_all_daily_before_hourly c2Store 1

/-! ## C4: upsert replaces same-kind subscriptions -/

theorem countP_hourly_of_map_filter_daily (l : List Row) :
    ((l.filter (fun r => r.kind == Kind.daily)).map
        (fun r => (r.kind, r.daily_time))).countP (fun x => x.1 == Kind.hourly) = 0 := by
  rw [List.countP_map, List.countP_eq_zero]
  intro a ha
  have hk := (List.mem_filter.mp ha).2
  show ¬(a.kind == Kind.hourly) = true
  simp only [beq_iff_eq] at hk ⊢
  rw [hk]
  simp

theorem countP_hourly_of_map_filter_hourly (l : List Row) :
    ((l.filter (fun r => r.kind == Kind.hourly)).map
        (fun r => (r.kind, r.daily_time))).countP (fun x => x.1 == Kind.hourly) =
      (l.filter (fun r => r.kind == Kind.hourly)).length := by
  rw [List.countP_map, List.countP_eq_length]
  intro a ha
  exact (List.mem_filter.mp ha).2

theorem listSubs_countP_hourly (s : Store) (u : Int) :
    (listSubs s u).countP (fun x => x.1 == Kind.hourly) =
      (s.rows.filter (fun r => r.user_id == u && r.kind == Kind.hourly)).length := by
  unfold listSubs
  rw [List.map_append, List.countP_append, countP_hourly_of_map_filter_daily,
    countP_hourly_of_map_filter_hourly, Nat.zero_add, List.filter_filter]
  congr 1
  apply List.filter_congr
  intro r _
  exact Bool.and_comm _ _

/-- C4: after `add_sub(u, c1, hourly)` followed by `add_sub(u, c2, hourly)`,
the store holds exactly one hourly row for user `u`, and it is bound to
chat `c2`; accordingly `list_subs(u)` shows exactly one hourly
subscription.  The second `add_sub` first deletes every hourly row of the
user, then inserts the new one. -/
theorem upsert_hourly_replaces (s s1 s2 : Store) (u c1 c2 : Int) (n1 n2 : Nat)
    (_h1 : addSub s u c1 Kind.hourly Option.none n1 = Except.ok s1)
    (h2 : addSub s1 u c2 Kind.hourly Option.none n2 = Except.ok s2) :
    s2.rows.filter (fun r => r.user_id == u && r.kind == Kind.hourly) =
      [{ id := s1.nextId, user_id := u, chat_id := c2, kind := Kind.hourly,
         daily_time := Option.none, created_at := n2 }] ∧
    (listSubs s2 u).countP (fun x => x.1 == Kind.hourly) = 1 := by
  have hcond : (Kind.hourly == Kind.daily && pyFalsy Option.none) = false := rfl
  rw [addSub, hcond, if_neg (by simp)] at h2
  have hrows : s2.rows =
      s1.rows.filter (fun r => !(r.user_id == u && r.kind == Kind.hourly)) ++
        [{ id := s1.nextId, user_id := u, chat_id := c2, kind := Kind.hourly,
           daily_time := Option.none, created_at := n2 }] := by
    have := congrArg Store.rows (Except.ok.inj h2)
    exact this.symm
  constructor
  · rw [hrows, List.filter_append, List.filter_filter]
    have hz : s1.rows.filter
        (fun a => (a.user_id == u && a.kind == Kind.hourly) &&
          !(a.user_id == u && a.kind == Kind.hourly)) = [] := by
      rw [List.filter_eq_nil_iff]
      intro a _
      simp [Bool.and_not_self]
    rw [hz, List.nil_append]
    simp
  · rw [listSubs_countP_hourly, hrows, List.filter_append, List.filter_filter]
    have hz : s1.rows.filter
        (fun a => (a.user_id == u && a.kind == Kind.hourly) &&
          !(a.user_id == u && a.kind == Kind.hourly)) = [] := by
      rw [List.filter_eq_nil_iff]
      intro a _
      simp [Bool.and_not_self]
    rw [hz, List.nil_append]
    simp

/-- The store after `add_sub(1, 100, hourly)` on the empty store. -/
def c4s1 : Store :=
  { nextId := 1
    rows := [{ id := 0, user_id := 1, chat_id := 100, kind := Kind.hourly,
               daily_time := Option.none, created_at := 0 }] }

/-- The store after a further `add_sub(1, 200, hourly)`. -/
def c4s2 : Store :=
  { nextId := 2
    rows := [{ id := 1, user_id := 1, chat_id := 200, kind := Kind.hourly,
               daily_time := Option.none, created_at := 1 }] }

/-- Witness for C4: two consecutive hourly upserts for user 1 starting from
the empty store leave exactly one hourly row, bound to chat 200. -/
theorem upsert_hourly_replaces_witness :
    c4s2.rows.filter (fun r => r.user_id == (1 : Int) && r.kind == Kind.hourly) =
      [{ id := c4s1.nextId, user_id := 1, chat_id := 200, kind := Kind.hourly,
         daily_time := Option.none, created_at := 1 }] ∧
    (listSubs c4s2 1).countP (fun x => x.1 == Kind.hourly) = 1 :=
  upsert_hourly_replaces Store.empty c4s1 c4s2 1 100 200 0 1 rfl rfl

/-! ## C8: at most one hourly and one daily row per user -/

theorem storeOk_empty : storeOk Store.empty := by
  intro u k
  simp [Store.empty]

theorem countP_filter_le_countP (p q : Row → Bool) (l : List Row) :
    (l.filter q).countP p ≤ l.countP p := by
  rw [List.countP_filter]
  exact List.countP_mono_left (fun x _ hx => (Bool.and_eq_true _ _ |>.mp hx).1)

theorem storeOk_applyOp (s : Store) (op : Op) (h : storeOk s) :
    storeOk (applyOp s op) := by
  cases op with
  | removeAll user =>
    intro u k
    show ((removeAllSubs s user).1.rows.countP
      (fun r => r.user_id == u && r.kind == k)) ≤ 1
    have hrows : (removeAllSubs s user).1.rows =
        s.rows.filter (fun r => !(r.user_id == user)) := rfl
    rw [hrows]
    exact le_trans (countP_filter_le_countP _ _ _) (h u k)
  | upsert user chat kind dt now =>
    intro u k
    simp only [applyOp]
    cases haddsub : addSub s user chat kind dt now with
    | error e =>
      exact h u k
    | ok t =>
      show List.countP (fun r => r.user_id == u && r.kind == k) t.rows ≤ 1
      rw [addSub] at haddsub
      by_cases hcond : (kind == Kind.daily && pyFalsy dt) = true
      · rw [if_pos hcond] at haddsub
        exact absurd haddsub (by simp)
      · rw [if_neg hcond] at haddsub
        have ht := (Except.ok.inj haddsub).symm
        rw [ht]
        show List.countP (fun r => r.user_id == u && r.kind == k)
          (s.rows.filter (fun r => !(r.user_id == user && r.kind == kind)) ++
            [{ id := s.nextId, user_id := user, chat_id := chat, kind := kind,
               daily_time := dt, created_at := now }]) ≤ 1
        rw [List.countP_append]
        by_cases hsame : u = user ∧ k = kind
        · obtain ⟨rfl, rfl⟩ := hsame
          have hz : (s.rows.filter
              (fun r => !(r.user_id == u && r.kind == k))).countP
              (fun r => r.user_id == u && r.kind == k) = 0 := by
            rw [List.countP_filter, List.countP_eq_zero]
            intro a _
            simp [Bool.and_not_self]
          rw [hz, Nat.zero_add]
          simp [List.countP_cons]
        · have hzr : List.countP (fun r : Row => r.user_id == u && r.kind == k)
              [{ id := s.nextId, user_id := user, chat_id := chat, kind := kind,
                 daily_time := dt, created_at := now }] = 0 := by
            rw [List.countP_eq_zero]
            intro a ha
            rw [List.mem_singleton] at ha
            rw [ha]
            show ¬((user == u) && (kind == k)) = true
            simp only [Bool.and_eq_true, beq_iff_eq, not_and]
            intro hu hk
            rw [not_and_or] at hsame
            rcases hsame with hne | hne
            · exact hne hu.symm
            · exact hne hk.symm
          rw [hzr, Nat.add_zero]
          exact le_trans (countP_filter_le_countP _ _ _) (h u k)

theorem storeOk_foldl :
    ∀ (ops : List Op) (s : Store), storeOk s → storeOk (ops.foldl applyOp s) := by
  intro ops
  induction ops with
  | nil => intro s h; exact h
  | cons op rest ih => intro s h; exact ih _ (storeOk_applyOp s op h)

/-- Subscribe user 1 hourly, then daily at 09:00, starting from the empty
store. -/
def c8Ops : List Op :=
  [Op.upsert 1 100 Kind.hourly Option.none 0,
   Op.upsert 1 100 Kind.daily (Option.some "09:00") 1]

/-- C8: every store reachable from the empty table by a sequence of upserts
and unsubscribe-alls holds at most one hourly and at most one daily row per
user, and a user can hold one hourly and one daily subscription at the same
time (witnessed by the reachable store of `c8Ops`). -/
theorem store_invariant_reachable (ops : List Op) :
    storeOk (ops.foldl applyOp Store.empty) ∧
    ((c8Ops.foldl applyOp Store.empty).rows.countP
        (fun r => r.user_id == (1 : Int) && r.kind == Kind.hourly) = 1 ∧
      (c8Ops.foldl applyOp Store.empty).rows.countP
        (fun r => r.user_id == (1 : Int) && r.kind == Kind.daily) = 1) :=
  ⟨storeOk_foldl ops Store.empty storeOk_empty, by decide, by decide⟩

/-! ## C9: remove_all deletes everything of the user and counts it -/

/-- C9: `remove_all_subs(u)` keeps exactly the rows of other users and
returns how many rows it deleted: the number of rows owned by `u`, which is
0 when the user had none and 2 when the user held exactly two
subscriptions (e.g. one hourly and one daily). -/
theorem removeAllSubs_spec (s : Store) (u : Int) :
    (∀ r : Row, r ∈ (removeAllSubs s u).1.rows ↔ (r ∈ s.rows ∧ r.user_id ≠ u)) ∧
    (removeAllSubs s u).2 = s.rows.countP (fun r => r.user_id == u) ∧
    (s.rows.filter (fun r => r.user_id == u) = [] → (removeAllSubs s u).2 = 0) ∧
    (∀ r1 r2 : Row, s.rows.filter (fun r => r.user_id == u) = [r1, r2] →
      (removeAllSubs s u).2 = 2) := by
  have hrows : (removeAllSubs s u).1.rows =
      s.rows.filter (fun r => !(r.user_id == u)) := rfl
  have hcount : (removeAllSubs s u).2 =
      s.rows.countP (fun r => r.user_id == u) := by
    show s.rows.length -
        (s.rows.filter (fun r => !(r.user_id == u))).length = _
    have hperm :=
      (List.filter_append_perm (fun r : Row => r.user_id == u) s.rows).length_eq
    rw [List.length_append] at hperm
    rw [List.countP_eq_length_filter]
    omega
  refine ⟨?_, hcount, ?_, ?_⟩
  · intro r
    rw [hrows, List.mem_filter]
    simp
  · intro hnil
    rw [hcount, List.countP_eq_length_filter, hnil]
    rfl
  · intro r1 r2 hpair
    rw [hcount, List.countP_eq_length_filter, hpair]
    rfl

/-- User 1 holds one hourly and one daily subscription. -/
def c9Store : Store :=
  { nextId := 2
    rows := [{ id := 0, user_id := 1, chat_id := 50, kind := Kind.hourly,
               daily_time := Option.none, created_at := 0 },
             { id := 1, user_id := 1, chat_id := 50, kind := Kind.daily,
               daily_time := Option.some "12:00", created_at := 1 }] }

/-- Witness for C9: removing all subscriptions of user 1, who holds one
hourly and one daily row, reports 2 deleted rows; user 2 had none and gets
0. -/
theorem removeAllSubs_spec_witness :
    (removeAllSubs c9Store 1).2 = 2 ∧ (removeAllSubs c9Store 2).2 = 0 :=
  ⟨(removeAllSubs_spec c9Store 1).2.2.2
      { id := 0, user_id := 1, chat_id := 50, kind := Kind.hourly,
        daily_time := Option.none, created_at := 0 }
      { id := 1, user_id := 1, chat_id := 50, kind := Kind.daily,
        daily_time := Option.some "12:00", created_at := 1 }
      (by decide),
    (removeAllSubs_spec c9Store 2).2.2.1 (by decide)⟩

/-! ## C10: /subscribe_daily argument validation and normalization -/

/-- C10: a daily time is stored exactly when the argument has exactly one
colon, both parts are (nonempty strings of) digits, the hour is at most 23
and the minute at most 59; the stored value is the zero-padded `HH:MM`
normalization, which is the `strftime("%H:%M")` rendering of a valid
wall-clock time, so a store row carrying it is found by the resolver's
daily query at that time. -/
theorem subscribe_daily_parse_spec (arg : String) :
    ((parseDailyArg arg).isSome = true ↔
      (colonCount arg = 1 ∧ pyIsdigit (hourPart arg) = true ∧
        pyIsdigit (minutePart arg) = true ∧
        digitsToNat (hourPart arg) ≤ 23 ∧ digitsToNat (minutePart arg) ≤ 59)) ∧
    (∀ t : String, parseDailyArg arg = Option.some t →
      t = strftimeHM (digitsToNat (hourPart arg)) (digitsToNat (minutePart arg)) ∧
      ∃ hr mn : Nat, hr ≤ 23 ∧ mn ≤ 59 ∧ strftimeHM hr mn = t ∧
        ∀ (s : Store) (chat : Int),
          (∃ r ∈ s.rows, r.kind = Kind.daily ∧ r.daily_time = Option.some t ∧
            r.chat_id = chat) →
          chat ∈ distinctDailyChats s (strftimeHM hr mn)) := by
  constructor
  · simp only [parseDailyArg]
    split_ifs with h1 h2 h3
    · simp only [Option.isSome_none, Bool.false_eq_true, false_iff]
      intro hc
      exact h1 hc.1
    · simp only [Option.isSome_some, true_iff]
      exact ⟨not_not.mp h1, h2.1, h2.2, h3.1, h3.2⟩
    · simp only [Option.isSome_none, Bool.false_eq_true, false_iff]
      intro hc
      exact h3 ⟨hc.2.2.2.1, hc.2.2.2.2⟩
    · simp only [Option.isSome_none, Bool.false_eq_true, false_iff]
      intro hc
      exact h2 ⟨hc.2.1, hc.2.2.1⟩
  · intro t ht
    simp only [parseDailyArg] at ht
    split_ifs at ht with h1 h2 h3
    have heq := Option.some.inj ht
    refine ⟨heq.symm, digitsToNat (hourPart arg), digitsToNat (minutePart arg),
      h3.1, h3.2, heq, ?_⟩
    rintro s chat ⟨r, hr, hk, hd, hc⟩
    refine (mem_distinctDailyChats s _ chat).mpr ⟨r, hr, hk, ?_, hc⟩
    rw [hd, ← heq]
    rfl

/-- Witness for C10: the argument `"9:5"` is accepted, normalized to
`"09:05"`, and a daily row storing `"09:05"` is found due by the resolver
at 09:05 UTC. -/
theorem subscribe_daily_parse_spec_witness :
    "09:05" = strftimeHM (digitsToNat (hourPart "9:5")) (digitsToNat (minutePart "9:5")) ∧
    ∃ hr mn : Nat, hr ≤ 23 ∧ mn ≤ 59 ∧ strftimeHM hr mn = "09:05" ∧
      ∀ (s : Store) (chat : Int),
        (∃ r ∈ s.rows, r.kind = Kind.daily ∧ r.daily_time = Option.some "09:05" ∧
          r.chat_id = chat) →
        chat ∈ distinctDailyChats s (strftimeHM hr mn) :=
  (subscribe_daily_parse_spec "9:5").2 "09:05" (by decide)

/-- Witness for C8 at the concrete operation sequence `c8Ops`. -/
theorem store_invariant_reachable_witness :
    storeOk (c8Ops.foldl applyOp Store.empty) ∧
    ((c8Ops.foldl applyOp Store.empty).rows.countP
        (fun r => r.user_id == (1 : Int) && r.kind == Kind.hourly) = 1 ∧
      (c8Ops.foldl applyOp Store.empty).rows.countP
        (fun r => r.user_id == (1 : Int) && r.kind == Kind.daily) = 1) :=
  store_invariant_reachable c8Ops
